import Mathlib

/-!
Shallow embedding of the build-status service of the nightly-check dashboard
(`src/services/buildStatusService.ts`).

Modelling choices:
* Instants are integers counting milliseconds (the value of `Date.getTime()`).
  `Math.floor` of a real division by a positive constant is `Int.fdiv`.
* Local wall-clock time is a `LocalTime`: a day index plus milliseconds since
  local midnight (`0 ≤ msOfDay < msPerDay` where it matters), so
  `new Date(y, m, d)` is "the day index" and `setHours(h, 0, 0, 0)` is
  `msOfDay := h * msPerHour`.
* The browser key-value store holds one value; it is `missing`, `corrupt`
  (present but `JSON.parse`/shape validation fails — the `catch` branch), or
  `valid` with a parsed `CachedData`.
* The remote GitHub fetch is a parameter `remote : Option (List BuildStatus × Nat)`:
  `none` means the fetch failed for any reason (network error, missing
  workflow, bad status) and the `catch` fallback runs; `some (builds, total)`
  is a successful response, already mapped to records, with the raw
  `total_count` field (`0` standing for a falsy value, so `total_count ||
  builds.length` is `if total = 0 then builds.length else total`).
* `successRate` is a rational: the source divides two nonnegative integers and
  multiplies by 100.
* Effects of `fetchBuildStatus` are made explicit: it returns the stats, the
  resulting store value, and a flag recording whether a remote fetch happened.
-/

namespace NightlyCheck

def msPerDay : Int := 86400000

def msPerHour : Int := 3600000

inductive BStatus where
  | success
  | failure
deriving DecidableEq, Repr, Inhabited

structure BuildStatus where
  date : Int
  status : BStatus
  conclusion : String
  runNumber : Int
deriving DecidableEq, Repr, Inhabited

structure IncidentStats where
  daysWithoutIncident : Int
  lastIncidentDate : Option Int
  totalBuilds : Nat
  successRate : ℚ
  streak : Nat
deriving DecidableEq, Repr

structure CachedData where
  stats : IncidentStats
  builds : List BuildStatus
  lastFetched : Int
  nextUpdate : Int
deriving DecidableEq, Repr

/-- `const UPDATE_HOURS = [6, 13, 19, 23]`. -/
def UPDATE_HOURS : List Int := [6, 13, 19, 23]

structure LocalTime where
  day : Int
  msOfDay : Int
deriving DecidableEq, Repr

/-- The absolute instant of a local wall-clock time. -/
def LocalTime.absMs (t : LocalTime) : Int := t.day * msPerDay + t.msOfDay

/-- `getNextUpdateTime`: first hour of `UPDATE_HOURS` whose time today is
strictly after `now`, else the first update hour tomorrow. -/
def getNextUpdateTime (now : LocalTime) : LocalTime :=
  match UPDATE_HOURS.find? (fun h => decide (now.msOfDay < h * msPerHour)) with
  | some h => ⟨now.day, h * msPerHour⟩
  | none => ⟨now.day + 1, (UPDATE_HOURS.getD 0 0) * msPerHour⟩

/-- The persisted store value: absent key, present-but-unparsable value
(the `catch` in `getCachedData`), or a parsed snapshot. -/
inductive StoredValue where
  | missing
  | corrupt
  | valid (data : CachedData)
deriving DecidableEq, Repr

/-- `getCachedData`: returns the snapshot only when present, parsed and
`now < nextUpdate`; otherwise `null`. Never throws: the parse failure is the
`corrupt` case. -/
def getCachedData (store : StoredValue) (now : Int) : Option CachedData :=
  match store with
  | .missing => none
  | .corrupt => none
  | .valid data => if now < data.nextUpdate then some data else none

/-- `saveToCache`: the snapshot written to the store (the builds list is
stored as passed, with `lastFetched = now` and
`nextUpdate = getNextUpdateTime()`). -/
def saveToCache (stats : IncidentStats) (builds : List BuildStatus)
    (now : LocalTime) : CachedData :=
  { stats := stats
    builds := builds
    lastFetched := now.absMs
    nextUpdate := (getNextUpdateTime now).absMs }

/-- The `catch` fallback of `fetchWorkflowRuns`: 10 synthetic builds, one per
day back from `today`, failure exactly at offset 4, run numbers counting down
from 672. -/
def fallbackBuilds (today : Int) : List BuildStatus :=
  (List.range 10).map fun i =>
    let status : BStatus :=
      if i < 4 then .success else if i = 4 then .failure else .success
    { date := today - (i : Int) * msPerDay
      status := status
      conclusion := if status = .success then "success" else "failure"
      runNumber := 672 - (i : Int) }

/-- `fetchWorkflowRuns`: a successful remote response is passed through with
`totalCount = runsData.total_count || builds.length`; any failure yields the
fallback series with total count 672. -/
def fetchWorkflowRuns (remote : Option (List BuildStatus × Nat)) (today : Int) :
    List BuildStatus × Nat :=
  match remote with
  | some (builds, totalCount) =>
      (builds, if totalCount = 0 then builds.length else totalCount)
  | none => (fallbackBuilds today, 672)

/-- `builds.sort((a, b) => new Date(b.date).getTime() - new Date(a.date).getTime())`:
sort by date descending (newest first). -/
def sortBuilds (builds : List BuildStatus) : List BuildStatus :=
  builds.insertionSort (fun a b => b.date ≤ a.date)

/-- The `for (const build of sortedBuilds)` loop computing
`daysWithoutIncident`/`lastIncidentDate`: stop at the first failure, else fold
`max` of `Math.floor((today - buildDate) / msPerDay) + 1` into the
accumulator. -/
def incidentLoop (now : Int) : List BuildStatus → Int → Int × Option Int
  | [], acc => (acc, none)
  | b :: rest, acc =>
      if b.status = BStatus.failure then (acc, some b.date)
      else incidentLoop now rest (max acc ((now - b.date).fdiv msPerDay + 1))

/-- The streak loop: count successes from the newest until the first
non-success. -/
def streakLoop : List BuildStatus → Nat
  | [] => 0
  | b :: rest => if b.status = BStatus.success then streakLoop rest + 1 else 0

/-- The stats returned (and cached) when the fetched builds list is empty. -/
def emptyStats : IncidentStats :=
  { daysWithoutIncident := 0
    lastIncidentDate := none
    totalBuilds := 0
    successRate := 0
    streak := 0 }

/-- The statistics block of `fetchBuildStatus` (lines 189–257): early return
on empty input, else sort, run the incident loop, override
`daysWithoutIncident` from the oldest build when no failure was found, compute
the success rate and the streak. -/
def computeStats (builds : List BuildStatus) (totalCount : Nat) (now : Int) :
    IncidentStats :=
  if builds = [] then emptyStats
  else
    let sorted := sortBuilds builds
    let p := incidentLoop now sorted 0
    let daysWithoutIncident : Int :=
      match p.2 with
      | some _ => p.1
      | none =>
          match sorted.getLast? with
          | some oldest => (now - oldest.date).fdiv msPerDay + 1
          | none => p.1
    let successfulBuilds :=
      (builds.filter fun b => decide (b.status = BStatus.success)).length
    { daysWithoutIncident := daysWithoutIncident
      lastIncidentDate := p.2
      totalBuilds := totalCount
      successRate := ((successfulBuilds : ℚ) / (builds.length : ℚ)) * 100
      streak := streakLoop sorted }

/-- `fetchBuildStatus`: returns the cached stats on a valid snapshot
(store untouched, no fetch); otherwise fetches, computes, saves the snapshot
(the builds list saved is the sorted one — `sort` mutates in place) and
returns the fresh stats. The `Bool` records whether a remote fetch happened. -/
def fetchBuildStatus (store : StoredValue)
    (remote : Option (List BuildStatus × Nat)) (now : LocalTime) :
    IncidentStats × StoredValue × Bool :=
  match getCachedData store now.absMs with
  | some cached => (cached.stats, store, false)
  | none =>
      let r := fetchWorkflowRuns remote now.absMs
      if r.1 = [] then
        (emptyStats, StoredValue.valid (saveToCache emptyStats [] now), true)
      else
        let stats := computeStats r.1 r.2 now.absMs
        (stats,
          StoredValue.valid (saveToCache stats (sortBuilds r.1) now), true)

/-- `fetchRecentBuilds`: the first 10 of the cached builds on a valid
snapshot, else the first 10 of the freshly fetched batch. -/
def fetchRecentBuilds (store : StoredValue)
    (remote : Option (List BuildStatus × Nat)) (now : LocalTime) :
    List BuildStatus :=
  match getCachedData store now.absMs with
  | some cached => cached.builds.take 10
  | none => (fetchWorkflowRuns remote now.absMs).1.take 10

/-! ### Helper lemmas -/

/-- The incident loop is: fold `max` over the ages of the builds before the
first failure, and report the first failure's date (if any). -/
theorem incidentLoop_eq (now : Int) (l : List BuildStatus) (acc : Int) :
    incidentLoop now l acc =
      (((l.takeWhile fun b => decide (b.status ≠ BStatus.failure)).map
          (fun b => (now - b.date).fdiv msPerDay + 1)).foldl max acc,
        ((l.dropWhile fun b => decide (b.status ≠ BStatus.failure)).head?).map
          BuildStatus.date) := by
  induction l generalizing acc with
  | nil => simp [incidentLoop]
  | cons b rest ih =>
    by_cases hb : b.status = BStatus.failure
    · simp [incidentLoop, hb, List.takeWhile_cons, List.dropWhile_cons]
    · simp [incidentLoop, hb, List.takeWhile_cons, List.dropWhile_cons, ih]

/-- The streak loop counts the longest all-success prefix. -/
theorem streakLoop_eq (l : List BuildStatus) :
    streakLoop l =
      (l.takeWhile fun b => decide (b.status = BStatus.success)).length := by
  induction l with
  | nil => simp [streakLoop]
  | cons b rest ih =>
    by_cases hb : b.status = BStatus.success
    · simp [streakLoop, hb, List.takeWhile_cons, ih]
    · simp [streakLoop, hb, List.takeWhile_cons]

theorem computeStats_lastIncidentDate (builds : List BuildStatus)
    (totalCount : Nat) (now : Int) (hb : builds ≠ []) :
    (computeStats builds totalCount now).lastIncidentDate =
      (incidentLoop now (sortBuilds builds) 0).2 := by
  simp [computeStats, hb]

theorem computeStats_days (builds : List BuildStatus) (totalCount : Nat)
    (now : Int) (hb : builds ≠ []) :
    (computeStats builds totalCount now).daysWithoutIncident =
      (match (incidentLoop now (sortBuilds builds) 0).2 with
       | some _ => (incidentLoop now (sortBuilds builds) 0).1
       | none =>
          match (sortBuilds builds).getLast? with
          | some oldest => (now - oldest.date).fdiv msPerDay + 1
          | none => (incidentLoop now (sortBuilds builds) 0).1) := by
  simp [computeStats, hb]

theorem computeStats_streak (builds : List BuildStatus) (totalCount : Nat)
    (now : Int) (hb : builds ≠ []) :
    (computeStats builds totalCount now).streak =
      streakLoop (sortBuilds builds) := by
  simp [computeStats, hb]

theorem computeStats_successRate (builds : List BuildStatus) (totalCount : Nat)
    (now : Int) (hb : builds ≠ []) :
    (computeStats builds totalCount now).successRate =
      (((builds.filter fun b => decide (b.status = BStatus.success)).length : ℚ) /
        (builds.length : ℚ)) * 100 := by
  simp [computeStats, hb]

/-! ### Claims -/

/-- C9: when the builds obtained on a cache miss are empty, the computation
raises no exception (it is total) and returns exactly
`{daysWithoutIncident := 0, lastIncidentDate := none, totalBuilds := 0,
successRate := 0, streak := 0}`. -/
theorem c9_empty_builds (store : StoredValue)
    (remote : Option (List BuildStatus × Nat)) (now : LocalTime)
    (totalCount : Nat) (hmiss : getCachedData store now.absMs = none)
    (hempty : remote = some ([], totalCount)) :
    (fetchBuildStatus store remote now).1 =
      { daysWithoutIncident := 0
        lastIncidentDate := none
        totalBuilds := 0
        successRate := 0
        streak := 0 } := by
  subst hempty
  simp [fetchBuildStatus, hmiss, fetchWorkflowRuns, emptyStats]

theorem c9_empty_builds_witness :
    (fetchBuildStatus StoredValue.missing (some ([], 5)) ⟨0, 0⟩).1 =
      { daysWithoutIncident := 0
        lastIncidentDate := none
        totalBuilds := 0
        successRate := 0
        streak := 0 } :=
  c9_empty_builds StoredValue.missing (some ([], 5)) ⟨0, 0⟩ 5 rfl rfl

/-- C5: `getCachedData` returns the stored snapshot iff the stored value is
present, parses, and `now < nextUpdate`; a missing or corrupt stored value
yields `none` (the source catches the parse error rather than throwing), and a
snapshot whose `nextUpdate` is not in the future is never returned. -/
theorem c5_load_valid_snapshot (store : StoredValue) (now : Int) :
    (∀ d : CachedData,
      getCachedData store now = some d ↔
        store = StoredValue.valid d ∧ now < d.nextUpdate) ∧
    getCachedData StoredValue.missing now = none ∧
    getCachedData StoredValue.corrupt now = none := by
  refine ⟨fun d => ?_, rfl, rfl⟩
  cases store with
  | missing => simp [getCachedData]
  | corrupt => simp [getCachedData]
  | valid data =>
    constructor
    · intro hsome
      simp only [getCachedData] at hsome
      split at hsome
      · cases hsome
        exact ⟨rfl, by assumption⟩
      · exact absurd hsome (by simp)
    · rintro ⟨hv, hlt⟩
      cases hv
      simp [getCachedData, hlt]

def dWitness : CachedData :=
  { stats := emptyStats, builds := [], lastFetched := 0, nextUpdate := 10 }

theorem c5_load_valid_snapshot_witness :
    getCachedData (StoredValue.valid dWitness) 5 = some dWitness :=
  ((c5_load_valid_snapshot (StoredValue.valid dWitness) 5).1 dWitness).mpr
    ⟨rfl, by decide⟩

/-- C10: on a valid cached snapshot, `fetchBuildStatus` returns exactly the
cached stats, performs no remote fetch (flag `false`) and leaves the store
unchanged. -/
theorem c10_cache_hit (store : StoredValue)
    (remote : Option (List BuildStatus × Nat)) (now : LocalTime)
    (d : CachedData) (hvalid : getCachedData store now.absMs = some d) :
    fetchBuildStatus store remote now = (d.stats, store, false) := by
  simp [fetchBuildStatus, hvalid]

theorem c10_cache_hit_witness :
    fetchBuildStatus (StoredValue.valid dWitness) none ⟨0, 5⟩ =
      (dWitness.stats, StoredValue.valid dWitness, false) :=
  c10_cache_hit (StoredValue.valid dWitness) none ⟨0, 5⟩ dWitness rfl

/-- The spec's description of `nextRefreshTime`: the earliest configured
refresh hour (schedule 6, 13, 19, 23) strictly after `now` on the same
calendar day, else the first configured hour of the following day. -/
def nextRefreshTimeSpec (now : LocalTime) : LocalTime :=
  if now.msOfDay < 6 * msPerHour then ⟨now.day, 6 * msPerHour⟩
  else if now.msOfDay < 13 * msPerHour then ⟨now.day, 13 * msPerHour⟩
  else if now.msOfDay < 19 * msPerHour then ⟨now.day, 19 * msPerHour⟩
  else if now.msOfDay < 23 * msPerHour then ⟨now.day, 23 * msPerHour⟩
  else ⟨now.day + 1, 6 * msPerHour⟩

/-- C4: `getNextUpdateTime` returns the earliest configured refresh hour
strictly after `now` on the same day, or the first hour of the following day,
and its result is always strictly greater than `now`. -/
theorem c4_next_update_time (now : LocalTime) (hlt : now.msOfDay < msPerDay) :
    getNextUpdateTime now = nextRefreshTimeSpec now ∧
    now.absMs < (getNextUpdateTime now).absMs := by
  have hEq : getNextUpdateTime now = nextRefreshTimeSpec now := by
    unfold getNextUpdateTime nextRefreshTimeSpec UPDATE_HOURS
    by_cases h6 : now.msOfDay < 6 * msPerHour
    · rw [List.find?_cons_of_pos _ (by simpa using h6)]
      simp [h6]
    · rw [List.find?_cons_of_neg _ (by simpa using h6)]
      by_cases h13 : now.msOfDay < 13 * msPerHour
      · rw [List.find?_cons_of_pos _ (by simpa using h13)]
        simp [h6, h13]
      · rw [List.find?_cons_of_neg _ (by simpa using h13)]
        by_cases h19 : now.msOfDay < 19 * msPerHour
        · rw [List.find?_cons_of_pos _ (by simpa using h19)]
          simp [h6, h13, h19]
        · rw [List.find?_cons_of_neg _ (by simpa using h19)]
          by_cases h23 : now.msOfDay < 23 * msPerHour
          · rw [List.find?_cons_of_pos _ (by simpa using h23)]
            simp [h6, h13, h19, h23]
          · rw [List.find?_cons_of_neg _ (by simpa using h23)]
            simp [h6, h13, h19, h23, List.find?_nil]
  refine ⟨hEq, ?_⟩
  rw [hEq]
  unfold nextRefreshTimeSpec LocalTime.absMs
  have hd : msPerDay = 86400000 := rfl
  have hh : msPerHour = 3600000 := rfl
  rw [hd] at hlt
  split_ifs with h1 h2 h3 h4 <;> simp only [hd, hh] at * <;> omega

theorem c4_next_update_time_witness :
    getNextUpdateTime ⟨0, 7 * msPerHour⟩ = nextRefreshTimeSpec ⟨0, 7 * msPerHour⟩ ∧
    (⟨0, 7 * msPerHour⟩ : LocalTime).absMs <
      (getNextUpdateTime ⟨0, 7 * msPerHour⟩).absMs :=
  c4_next_update_time ⟨0, 7 * msPerHour⟩ (by decide)

/-- C3: `currentStreak` is the length of the longest all-success prefix of the
newest-first sorted list; it is at most the total record count, and it is `0`
whenever the newest (sorted-first) record is a failure. -/
theorem c3_current_streak (builds : List BuildStatus) (totalCount : Nat)
    (now : Int) :
    (computeStats builds totalCount now).streak =
      ((sortBuilds builds).takeWhile fun b =>
        decide (b.status = BStatus.success)).length ∧
    (computeStats builds totalCount now).streak ≤ builds.length ∧
    (∀ b rest, sortBuilds builds = b :: rest → b.status = BStatus.failure →
      (computeStats builds totalCount now).streak = 0) := by
  have hlen : (sortBuilds builds).length = builds.length :=
    List.length_insertionSort _ _
  by_cases hb : builds = []
  · subst hb
    refine ⟨by simp [computeStats, emptyStats, sortBuilds], by simp [computeStats, emptyStats], ?_⟩
    intro b rest hsb
    simp [sortBuilds] at hsb
  · have hstreak := computeStats_streak builds totalCount now hb
    rw [hstreak, streakLoop_eq]
    refine ⟨rfl, ?_, ?_⟩
    · calc ((sortBuilds builds).takeWhile fun b =>
            decide (b.status = BStatus.success)).length
          ≤ (sortBuilds builds).length :=
            (List.takeWhile_sublist _).length_le
        _ = builds.length := hlen
    · intro b rest hsb hfail
      rw [hsb]
      simp [List.takeWhile_cons, hfail]

def bFailOnly : BuildStatus :=
  { date := 0, status := .failure, conclusion := "failure", runNumber := 1 }

theorem c3_current_streak_witness : (computeStats [bFailOnly] 1 5).streak = 0 :=
  (c3_current_streak [bFailOnly] 1 5).2.2 bFailOnly [] rfl rfl

/-- C7: for non-empty builds, `successRate` equals
`100 × successCount / totalCount`, lies in `[0, 100]`, and equals `100` iff
every record is a success; for empty builds it is `0`. -/
theorem c7_success_rate (builds : List BuildStatus) (totalCount : Nat)
    (now : Int) :
    (builds = [] → (computeStats builds totalCount now).successRate = 0) ∧
    (builds ≠ [] →
      (computeStats builds totalCount now).successRate =
        100 * ((builds.filter fun b =>
          decide (b.status = BStatus.success)).length : ℚ) /
          (builds.length : ℚ) ∧
      0 ≤ (computeStats builds totalCount now).successRate ∧
      (computeStats builds totalCount now).successRate ≤ 100 ∧
      ((computeStats builds totalCount now).successRate = 100 ↔
        ∀ b ∈ builds, b.status = BStatus.success)) := by
  constructor
  · rintro rfl
    simp [computeStats, emptyStats]
  · intro hb
    have hrate := computeStats_successRate builds totalCount now hb
    have hn : 0 < builds.length := List.length_pos.mpr hb
    have hnQ : (0 : ℚ) < (builds.length : ℚ) := by exact_mod_cast hn
    have hle : (builds.filter fun b =>
        decide (b.status = BStatus.success)).length ≤ builds.length :=
      List.length_filter_le _ _
    have hleQ : (((builds.filter fun b =>
        decide (b.status = BStatus.success)).length : ℚ)) ≤
        (builds.length : ℚ) := by exact_mod_cast hle
    have hdiv1 : (((builds.filter fun b =>
        decide (b.status = BStatus.success)).length : ℚ)) /
        (builds.length : ℚ) ≤ 1 := (div_le_one hnQ).mpr hleQ
    refine ⟨by rw [hrate]; ring, by rw [hrate]; positivity, ?_, ?_⟩
    · rw [hrate]
      nlinarith
    · rw [hrate]
      constructor
      · intro h100
        have hq1 : (((builds.filter fun b =>
            decide (b.status = BStatus.success)).length : ℚ)) /
            (builds.length : ℚ) = 1 := by
          have := mul_right_cancel₀ (b := (100 : ℚ)) (by norm_num)
            (by linarith [h100] : (((builds.filter fun b =>
              decide (b.status = BStatus.success)).length : ℚ)) /
              (builds.length : ℚ) * 100 = 1 * 100)
          exact this
        have hqeq : (((builds.filter fun b =>
            decide (b.status = BStatus.success)).length : ℚ)) =
            (builds.length : ℚ) :=
          (div_eq_one_iff_eq hnQ.ne').mp hq1
        have hneq : (builds.filter fun b =>
            decide (b.status = BStatus.success)).length = builds.length := by
          exact_mod_cast hqeq
        have hfe : builds.filter (fun b =>
            decide (b.status = BStatus.success)) = builds :=
          (List.filter_sublist _).eq_of_length hneq
        intro b hbmem
        have := List.filter_eq_self.mp hfe b hbmem
        exact of_decide_eq_true this
      · intro hall
        have hfe : builds.filter (fun b =>
            decide (b.status = BStatus.success)) = builds :=
          List.filter_eq_self.mpr fun b hbmem =>
            decide_eq_true (hall b hbmem)
        rw [hfe, div_self hnQ.ne', one_mul]

theorem c7_success_rate_witness :
    0 ≤ (computeStats [bFailOnly] 1 5).successRate ∧
    (computeStats [bFailOnly] 1 5).successRate ≤ 100 :=
  ⟨((c7_success_rate [bFailOnly] 1 5).2 (by simp)).2.1,
    ((c7_success_rate [bFailOnly] 1 5).2 (by simp)).2.2.1⟩

/-- C1: on a non-empty newest-first list, if a first failure exists then
`lastIncidentDate` is its timestamp and `daysWithoutIncident` is the maximum
of `floor((now − t)/day) + 1` over the records strictly before it (so `0` when
the newest record is the failure, the fold over the empty prefix); if no
failure exists, `lastIncidentDate` is absent and `daysWithoutIncident` is
`floor((now − oldest)/day) + 1`. -/
theorem c1_days_without_incident (builds : List BuildStatus) (totalCount : Nat)
    (now : Int) (hne : builds ≠ [])
    (hs : List.Sorted (fun a b : BuildStatus => b.date ≤ a.date) builds) :
    (∀ f rest,
      builds.dropWhile (fun b => decide (b.status ≠ BStatus.failure)) =
        f :: rest →
      (computeStats builds totalCount now).lastIncidentDate = some f.date ∧
      (computeStats builds totalCount now).daysWithoutIncident =
        ((builds.takeWhile fun b => decide (b.status ≠ BStatus.failure)).map
          (fun b => (now - b.date).fdiv msPerDay + 1)).foldl max 0) ∧
    (builds.dropWhile (fun b => decide (b.status ≠ BStatus.failure)) = [] →
      (computeStats builds totalCount now).lastIncidentDate = none ∧
      (computeStats builds totalCount now).daysWithoutIncident =
        (now - (builds.getLast hne).date).fdiv msPerDay + 1) := by
  have hsort : sortBuilds builds = builds := by
    unfold sortBuilds
    exact hs.insertionSort_eq
  have hloop := incidentLoop_eq now builds 0
  constructor
  · intro f rest hdrop
    have h2 : (incidentLoop now (sortBuilds builds) 0).2 = some f.date := by
      rw [hsort, hloop, hdrop]
      rfl
    refine ⟨?_, ?_⟩
    · rw [computeStats_lastIncidentDate builds totalCount now hne, h2]
    · rw [computeStats_days builds totalCount now hne, h2]
      rw [hsort, hloop]
  · intro hdrop
    have h2 : (incidentLoop now (sortBuilds builds) 0).2 = none := by
      rw [hsort, hloop, hdrop]
      rfl
    refine ⟨?_, ?_⟩
    · rw [computeStats_lastIncidentDate builds totalCount now hne, h2]
    · rw [computeStats_days builds totalCount now hne, h2]
      rw [hsort, List.getLast?_eq_getLast builds hne]

def bCleanDay3 : BuildStatus :=
  { date := 3 * 86400000, status := .success, conclusion := "success"
    runNumber := 3 }

def bFailDay1 : BuildStatus :=
  { date := 86400000, status := .failure, conclusion := "failure"
    runNumber := 2 }

theorem c1_days_without_incident_witness :
    (computeStats [bCleanDay3, bFailDay1] 2 (4 * 86400000)).lastIncidentDate =
      some 86400000 ∧
    (computeStats [bCleanDay3, bFailDay1] 2 (4 * 86400000)).daysWithoutIncident =
      2 := by
  have h := (c1_days_without_incident [bCleanDay3, bFailDay1] 2 (4 * 86400000)
    (by simp) (by simp [List.sorted_cons, bCleanDay3, bFailDay1])).1
    bFailDay1 [] rfl
  refine ⟨?_, ?_⟩
  · rw [h.1]
    rfl
  · rw [h.2]
    decide

theorem range_ten : List.range 10 = [0, 1, 2, 3, 4, 5, 6, 7, 8, 9] := by
  decide

/-- C6: a failed remote fetch yields (without throwing) the fixed placeholder
series — exactly 10 records, one per day back from today, failure exactly at
offset 4, run numbers `672 − i`, total count 672 — and on the cache-miss path
the returned statistics are exactly those computed from that series. -/
theorem c6_fallback_series (today : Int) (store : StoredValue)
    (now : LocalTime) (hmiss : getCachedData store now.absMs = none) :
    fetchWorkflowRuns none today = (fallbackBuilds today, 672) ∧
    (fallbackBuilds today).length = 10 ∧
    (∀ i : Nat, i < 10 →
      ((fallbackBuilds today).getD i default).date =
        today - (i : Int) * msPerDay ∧
      (((fallbackBuilds today).getD i default).status = BStatus.failure ↔
        i = 4) ∧
      ((fallbackBuilds today).getD i default).runNumber = 672 - (i : Int)) ∧
    (fetchBuildStatus store none now).1 =
      computeStats (fallbackBuilds now.absMs) 672 now.absMs := by
  have hfb : ∀ t : Int, fallbackBuilds t ≠ [] := by
    intro t
    simp [fallbackBuilds, range_ten]
  refine ⟨rfl, by simp [fallbackBuilds, range_ten], ?_, ?_⟩
  · intro i hi
    interval_cases i <;>
      refine ⟨?_, ?_, ?_⟩ <;>
        simp [fallbackBuilds, range_ten]
  · simp [fetchBuildStatus, hmiss, fetchWorkflowRuns, hfb now.absMs]

theorem c6_fallback_series_witness : (fallbackBuilds 0).length = 10 :=
  (c6_fallback_series 0 StoredValue.missing ⟨0, 0⟩ rfl).2.1

def mkBuild (n : Nat) : BuildStatus :=
  { date := (n : Int), status := .success, conclusion := "success"
    runNumber := (n : Int) }

def elevenBuilds : List BuildStatus := (List.range 11).map mkBuild

/-- C2 counterexample: `saveToCache` persists the builds list exactly as
passed, so an 11-element input yields a persisted snapshot with 11 records,
more than 10. -/
theorem c2_snapshot_counterexample :
    10 < ((saveToCache emptyStats elevenBuilds ⟨0, 0⟩).builds).length := by
  simp [saveToCache, elevenBuilds]

/-- C2 (amended): the persisted snapshot keeps the full builds list passed to
`saveToCache`; the ≤10 truncation happens only on the read path, where
`fetchRecentBuilds` returns at most 10 records from the snapshot. -/
theorem c2_snapshot_builds (stats : IncidentStats) (builds : List BuildStatus)
    (now later : LocalTime) (remote : Option (List BuildStatus × Nat))
    (hvalid : later.absMs < (saveToCache stats builds now).nextUpdate) :
    (saveToCache stats builds now).builds = builds ∧
    fetchRecentBuilds (StoredValue.valid (saveToCache stats builds now))
      remote later = builds.take 10 ∧
    (fetchRecentBuilds (StoredValue.valid (saveToCache stats builds now))
      remote later).length ≤ 10 := by
  have hvalid' : later.absMs < (getNextUpdateTime now).absMs := by
    simpa [saveToCache] using hvalid
  have h2 : fetchRecentBuilds (StoredValue.valid (saveToCache stats builds now))
      remote later = builds.take 10 := by
    simp [fetchRecentBuilds, getCachedData, saveToCache, hvalid']
  refine ⟨rfl, h2, ?_⟩
  rw [h2]
  exact List.length_take_le 10 builds

theorem c2_snapshot_builds_witness :
    (saveToCache emptyStats elevenBuilds ⟨0, 0⟩).builds = elevenBuilds ∧
    (fetchRecentBuilds (StoredValue.valid
      (saveToCache emptyStats elevenBuilds ⟨0, 0⟩)) none ⟨0, 1⟩).length ≤ 10 := by
  have h := c2_snapshot_builds emptyStats elevenBuilds ⟨0, 0⟩ ⟨0, 1⟩ none
    (by decide)
  exact ⟨h.1, h.2.2⟩

def bOldFirst : BuildStatus :=
  { date := 0, status := .success, conclusion := "success", runNumber := 1 }

def bNewSecond : BuildStatus :=
  { date := 86400000, status := .success, conclusion := "success"
    runNumber := 2 }

/-- C8 counterexample: on a fresh fetch, `fetchRecentBuilds` returns the first
10 records of the batch in the batch's own order — here an older-first batch
comes back unsorted, so the result is not the newest-first ordering the claim
demands. -/
theorem c8_recent_builds_counterexample :
    fetchRecentBuilds StoredValue.missing (some ([bOldFirst, bNewSecond], 2))
      ⟨0, 0⟩ = [bOldFirst, bNewSecond] ∧
    bOldFirst.date < bNewSecond.date ∧
    ¬ List.Sorted (fun a b : BuildStatus => b.date ≤ a.date)
      (fetchRecentBuilds StoredValue.missing
        (some ([bOldFirst, bNewSecond], 2)) ⟨0, 0⟩) := by
  refine ⟨rfl, by decide, ?_⟩
  intro hsorted
  have h1 : fetchRecentBuilds StoredValue.missing
      (some ([bOldFirst, bNewSecond], 2)) ⟨0, 0⟩ =
      [bOldFirst, bNewSecond] := rfl
  rw [h1, List.sorted_cons] at hsorted
  have := hsorted.1 bNewSecond (by simp)
  simp [bOldFirst, bNewSecond] at this

/-- C8 (amended): `fetchRecentBuilds` returns the first 10 records of the
cached or freshly fetched batch, in the batch's own order (hence at most 10);
these are the 10 newest only when the batch itself is newest-first. -/
theorem c8_recent_builds (store : StoredValue)
    (remote : Option (List BuildStatus × Nat)) (now : LocalTime) :
    (∀ d : CachedData, getCachedData store now.absMs = some d →
      fetchRecentBuilds store remote now = d.builds.take 10) ∧
    (getCachedData store now.absMs = none →
      fetchRecentBuilds store remote now =
        (fetchWorkflowRuns remote now.absMs).1.take 10) ∧
    (fetchRecentBuilds store remote now).length ≤ 10 := by
  refine ⟨fun d hd => ?_, fun hn => ?_, ?_⟩
  · simp [fetchRecentBuilds, hd]
  · simp [fetchRecentBuilds, hn]
  · unfold fetchRecentBuilds
    cases h : getCachedData store now.absMs with
    | none => exact List.length_take_le 10 _
    | some d => exact List.length_take_le 10 _

theorem c8_recent_builds_witness :
    fetchRecentBuilds StoredValue.missing (some (elevenBuilds, 11)) ⟨0, 0⟩ =
      elevenBuilds.take 10 :=
  (c8_recent_builds StoredValue.missing (some (elevenBuilds, 11)) ⟨0, 0⟩).2.1
    rfl

end NightlyCheck
